import Mathlib

/-!
Shallow embedding of the secure-media-vault GraphQL resolvers
(`src/server/resolvers.ts`) and the schema in
`supabase/migrations/20250930105255_lively_dream.sql`.

Tables become lists of records, the Supabase/PostgREST calls become pure
list operations, and the external collaborators (Blob Gateway hashing and
URL signing, Unicode NFD normalization, the uuidv4 stream) become fields of
an `Env` record, so every resolver is a pure function from an `Env`, a
database state and its arguments to a result and an updated state.

PostgREST semantics captured by the embedding:
 - `.select().single()` after a filtered update errors when zero rows
   matched, which the resolvers surface as their conflict/not-found errors;
 - a bare `.delete()` (no `.select()`) reports NO error when zero rows
   matched — the caller cannot tell that nothing was deleted;
 - `asset_share!inner(*)` is an inner join: a parent `asset` row is only
   returned when at least one `asset_share` row exists for it.
-/

namespace MediaVault

/-- Asset lifecycle states, from the `status` CHECK constraint in the
migration: `draft`, `uploading`, `ready`, `corrupt`. -/
inductive Status where
  | draft
  | uploading
  | ready
  | corrupt
deriving DecidableEq, Repr

/-- GraphQL error codes thrown by the resolvers (`extensions.code`). -/
inductive ErrCode where
  | UNAUTHENTICATED
  | BAD_REQUEST
  | NOT_FOUND
  | VERSION_CONFLICT
  | INTEGRITY_ERROR
  | INTERNAL_ERROR
deriving DecidableEq, Repr

/-- Outcome of a resolver: a value or a thrown `GraphQLError` code. -/
inductive Res (α : Type) where
  | ok (a : α)
  | err (e : ErrCode)
deriving DecidableEq, Repr

/-- A row of the `asset` table.  Ids are the uuid strings the server
generates; `created_at` is a timestamp (milliseconds). -/
structure Asset where
  id : String
  owner_id : String
  filename : String
  mime : String
  size : Nat
  storage_path : String
  sha256 : Option String
  status : Status
  version : Nat
  created_at : Nat
deriving DecidableEq, Repr

/-- A row of the `upload_ticket` table (primary key `asset_id`, so at most
one ticket per asset). -/
structure UploadTicket where
  asset_id : String
  user_id : String
  nonce : String
  mime : String
  size : Nat
  storage_path : String
  expires_at : Nat
  used : Bool
deriving DecidableEq, Repr

/-- A row of the `asset_share` table (unique per (asset_id, to_user)). -/
structure AssetShare where
  asset_id : String
  to_user : String
  can_download : Bool
deriving DecidableEq, Repr

/-- A row of the `download_audit` table (`at_ts` models the `at` column,
whose name is a Lean keyword). -/
structure DownloadAudit where
  asset_id : String
  user_id : String
  at_ts : Nat
deriving DecidableEq, Repr

/-- Database plus blob-store state: the four tables and the set of paths
that currently hold bytes in the private storage bucket. -/
structure DB where
  assets : List Asset
  tickets : List UploadTicket
  shares : List AssetShare
  audits : List DownloadAudit
  storage : List String
deriving DecidableEq, Repr

/-- External collaborators, as pure functions:
`hashObject` is the `hash-object` edge function (sha256 of the stored bytes
at a path, `none` when the object is missing/unreadable, i.e. a non-ok HTTP
response); `signDownloadUrl path ttl` is `storage.createSignedUrl`;
`signUploadUrl` is `storage.createSignedUploadUrl`; `nfd` is JavaScript
`String.normalize('NFD')`; `uuid` is the uuidv4 stream, indexed by draw. -/
structure Env where
  hashObject : String → Option String
  signDownloadUrl : String → Nat → Option String
  signUploadUrl : String → Option String
  nfd : String → String
  uuid : Nat → String

/-- Combining diacritical marks U+0300–U+036F, removed by the sanitizer's
`replace(/[̀-ͯ]/g, '')`. -/
def isCombining (c : Char) : Bool :=
  0x300 ≤ c.toNat && c.toNat ≤ 0x36F

/-- Characters kept as-is by the sanitizer's `[^a-zA-Z0-9.-]` class. -/
def isAllowedChar (c : Char) : Bool :=
  ('a' ≤ c && c ≤ 'z') || ('A' ≤ c && c ≤ 'Z') ||
  ('0' ≤ c && c ≤ '9') || c == '.' || c == '-'

/-- Helper for `collapseDots`: the flag records whether the previous kept
character was a dot, so further dots of the same run are dropped. -/
def collapseDotsAux : Bool → List Char → List Char
  | _, [] => []
  | prevDot, c :: rest =>
    if c = '.' then
      if prevDot then collapseDotsAux true rest
      else '.' :: collapseDotsAux true rest
    else c :: collapseDotsAux false rest

/-- `replace(/\.{2,}/g, '.')`: every maximal run of two or more dots
becomes a single dot (a run of one dot is already a single dot, so
collapsing every run to one dot is the same function). -/
def collapseDots (l : List Char) : List Char :=
  collapseDotsAux false l

/-- `sanitizeFilename` from resolvers.ts: NFD-normalize, strip combining
marks, replace characters outside `[a-zA-Z0-9.-]` with `_`, collapse
repeated dots, truncate to 255. -/
def sanitizeFilename (nfd : String → String) (filename : String) : String :=
  let s1 := (nfd filename).toList
  let s2 := s1.filter (fun c => !isCombining c)
  let s3 := s2.map (fun c => if isAllowedChar c then c else '_')
  let s4 := collapseDots s3
  String.mk (s4.take 255)

/-- `String(now.getMonth() + 1).padStart(2, '0')`. -/
def padMonth (m : Nat) : String :=
  if m < 10 then "0" ++ toString m else toString m

/-- `generateStoragePath` from resolvers.ts.  The function reads the clock
(year and month of the call) and draws a FRESH uuid of its own (`uuidv4()`
inside the function, draw index `k`):
`${userId}/${year}/${month}/${assetId}-${safeFilename}`. -/
def generateStoragePath (env : Env) (k : Nat) (userId filename : String)
    (year month : Nat) : String :=
  userId ++ "/" ++ toString year ++ "/" ++ padMonth month ++ "/" ++
    env.uuid k ++ "-" ++ sanitizeFilename env.nfd filename

/-- The fixed MIME allow-list in `createUploadUrl`. -/
def allowedMimes : List String :=
  ["image/jpeg", "image/png", "image/gif", "image/webp", "application/pdf"]

/-- Payload returned by a successful `createUploadUrl`. -/
structure UploadTicketPayload where
  assetId : String
  storagePath : String
  uploadUrl : String
  expiresAt : Nat
  nonce : String
deriving DecidableEq, Repr

/-- `createUploadUrl` from resolvers.ts.  `k` is the index of the next
uuidv4 draw (the resolver draws one uuid for `assetId` and
`generateStoragePath` draws a second one for the path); `year`/`month` are
the issuance date; `now` the issuance time in ms; `nonce` the value of
`crypto.randomBytes(32).toString('hex')`.  On signing failure the already
inserted asset and ticket rows are NOT rolled back. -/
def createUploadUrl (env : Env) (db : DB) (k : Nat)
    (userId filename mime : String) (size : Nat)
    (year month now : Nat) (nonce : String) :
    Res UploadTicketPayload × DB :=
  if !(allowedMimes.contains mime) then (.err .BAD_REQUEST, db)
  else if 50 * 1024 * 1024 < size then (.err .BAD_REQUEST, db)
  else
    let assetId := env.uuid k
    let storagePath := generateStoragePath env (k + 1) userId filename year month
    let asset : Asset :=
      { id := assetId, owner_id := userId,
        filename := sanitizeFilename env.nfd filename,
        mime := mime, size := size, storage_path := storagePath,
        sha256 := none, status := .draft, version := 1, created_at := now }
    let expiresAt := now + 10 * 60 * 1000
    let ticket : UploadTicket :=
      { asset_id := assetId, user_id := userId, nonce := nonce,
        mime := mime, size := size, storage_path := storagePath,
        expires_at := expiresAt, used := false }
    let db1 : DB := { db with assets := db.assets ++ [asset],
                              tickets := db.tickets ++ [ticket] }
    match env.signUploadUrl storagePath with
    | none => (.err .INTERNAL_ERROR, db1)
    | some url =>
      (.ok { assetId := assetId, storagePath := storagePath,
             uploadUrl := url, expiresAt := expiresAt, nonce := nonce }, db1)

/-- `startsWithChars needle hay`: `needle` is a prefix of `hay`. -/
def startsWithChars : List Char → List Char → Bool
  | [], _ => true
  | _ :: _, [] => false
  | a :: as, b :: bs => a == b && startsWithChars as bs

/-- `containsChars needle hay`: `needle` occurs contiguously in `hay`. -/
def containsChars (needle : List Char) : List Char → Bool
  | [] => startsWithChars needle []
  | c :: rest => startsWithChars needle (c :: rest) || containsChars needle rest

/-- `filename ILIKE '%q%'`: case-insensitive substring match (the model
treats the characters of `q` literally, as the claims' inputs do). -/
def ilikeContains (filename q : String) : Bool :=
  containsChars q.toLower.toList filename.toLower.toList

/-- Insert into a list kept in descending `created_at` order. -/
def insertDesc (a : Asset) : List Asset → List Asset
  | [] => [a]
  | b :: rest =>
    if b.created_at < a.created_at then a :: b :: rest
    else b :: insertDesc a rest

/-- `ORDER BY created_at DESC` over a list of rows. -/
def sortDesc : List Asset → List Asset
  | [] => []
  | a :: rest => insertDesc a (sortDesc rest)

/-- The row set of the `myAssets` query before ordering and `LIMIT`:
`owner_id = caller`, optional `filename ILIKE '%q%'`, optional
`created_at > after`. -/
def myAssetsRows (db : DB) (userId : String) (after : Option Nat)
    (q : Option String) : List Asset :=
  let owned := db.assets.filter (fun a => a.owner_id == userId)
  let filtered := match q with
    | some s => owned.filter (fun a => ilikeContains a.filename s)
    | none => owned
  match after with
  | some t => filtered.filter (fun a => t < a.created_at)
  | none => filtered

/-- An edge of the `myAssets` connection: cursor is the row's
`created_at`; the node is decorated with `isOwner := true` and
`canDownload := (status == 'ready')`. -/
structure Edge where
  cursor : Nat
  node : Asset
  isOwner : Bool
  canDownload : Bool
deriving DecidableEq, Repr

/-- The `myAssets` result page. -/
structure AssetsPage where
  edges : List Edge
  endCursor : Option Nat
  hasNextPage : Bool
deriving DecidableEq, Repr

/-- `myAssets` from resolvers.ts: filter to the caller's assets (plus the
optional `ilike` and `gt`-cursor filters), order by `created_at`
descending, take `first` rows; `endCursor` is the last edge's cursor and
`hasNextPage` is `edges.length === first`. -/
def myAssets (db : DB) (userId : String) (first : Nat) (after : Option Nat)
    (q : Option String) : AssetsPage :=
  let page := (sortDesc (myAssetsRows db userId after q)).take first
  let edges := page.map (fun a =>
    { cursor := a.created_at, node := a, isOwner := true,
      canDownload := a.status == .ready })
  { edges := edges,
    endCursor := (edges.getLast?).map (fun e => e.cursor),
    hasNextPage := edges.length == first }

/-- The access query of `getDownloadUrl`:
`select('*, asset_share!inner(*)').eq('id', assetId)
 .or('owner_id.eq.<caller>,asset_share.to_user.eq.<caller>')
 .eq('status', 'ready').single()`.
The `asset_share!inner(*)` embed is an inner join, so the asset row is
returned only when at least one `asset_share` row exists for it; the `or`
admits the owner or any user holding a share row, and — reading the query
in the way most favorable to the code — the share's `can_download` flag is
never examined. -/
def downloadAccessQuery (db : DB) (userId assetId : String) : Option Asset :=
  db.assets.find? (fun a =>
    a.id == assetId &&
    db.shares.any (fun s => s.asset_id == a.id) &&
    (a.owner_id == userId ||
      db.shares.any (fun s => s.asset_id == a.id && s.to_user == userId)) &&
    a.status == .ready)

/-- Result of `getDownloadUrl`. -/
structure DownloadLink where
  url : String
  expiresAt : Nat
deriving DecidableEq, Repr

/-- `getDownloadUrl` from resolvers.ts: run the access query (failure ⇒
`NOT_FOUND`), request a signed read URL with ttl 90 seconds (failure ⇒
`INTERNAL_ERROR`), append a `download_audit` row, and return the URL with
`expiresAt = Date.now() + 90 * 1000`. -/
def getDownloadUrl (env : Env) (db : DB) (userId assetId : String)
    (now : Nat) : Res DownloadLink × DB :=
  match downloadAccessQuery db userId assetId with
  | none => (.err .NOT_FOUND, db)
  | some asset =>
    match env.signDownloadUrl asset.storage_path 90 with
    | none => (.err .INTERNAL_ERROR, db)
    | some url =>
      let db1 : DB :=
        { db with audits := db.audits ++
            [{ asset_id := assetId, user_id := userId, at_ts := now }] }
      (.ok { url := url, expiresAt := now + 90 * 1000 }, db1)

/-- `update({ used: true }).eq('asset_id', assetId)` on `upload_ticket`:
marks every ticket for the asset used (the update filters on `asset_id`
only). -/
def markTicketUsed (db : DB) (assetId : String) : DB :=
  { db with tickets := db.tickets.map (fun t =>
      if t.asset_id == assetId then { t with used := true } else t) }

/-- The corrupt transition in `finalizeUpload`:
`update({ status: 'corrupt', version: version + 1 }).eq('id', assetId)` —
note there is NO `.eq('version', version)` guard: the update applies to the
row with this id regardless of its stored version, and writes
`version + 1` computed from the CALLER's `version` argument. -/
def corruptAsset (db : DB) (assetId : String) (version : Nat) : DB :=
  { db with assets := db.assets.map (fun a =>
      if a.id == assetId then { a with status := .corrupt, version := version + 1 }
      else a) }

/-- `finalizeUpload` from resolvers.ts.  Steps: fetch the ticket by
(asset_id, user_id) — absent ⇒ `BAD_REQUEST`; already `used` ⇒
`BAD_REQUEST`; expired (`new Date() > expires_at`) ⇒ `BAD_REQUEST`; mark
the ticket used; ask the gateway for the stored bytes' hash — non-ok ⇒
corrupt transition + `INTEGRITY_ERROR`; hash ≠ client hash ⇒ corrupt
transition + `INTEGRITY_ERROR`; otherwise the version-guarded ready update
(`.eq('id', assetId).eq('version', version).select().single()`), whose
zero-row case surfaces as `VERSION_CONFLICT`. -/
def finalizeUpload (env : Env) (db : DB) (userId assetId clientSha256 : String)
    (version now : Nat) : Res Asset × DB :=
  match db.tickets.find? (fun t => t.asset_id == assetId && t.user_id == userId) with
  | none => (.err .BAD_REQUEST, db)
  | some ticket =>
    if ticket.used then (.err .BAD_REQUEST, db)
    else if ticket.expires_at < now then (.err .BAD_REQUEST, db)
    else
      let db1 := markTicketUsed db assetId
      match env.hashObject ticket.storage_path with
      | none => (.err .INTEGRITY_ERROR, corruptAsset db1 assetId version)
      | some serverSha256 =>
        if clientSha256 ≠ serverSha256 then
          (.err .INTEGRITY_ERROR, corruptAsset db1 assetId version)
        else
          match db1.assets.find? (fun a => a.id == assetId && a.version == version) with
          | none => (.err .VERSION_CONFLICT, db1)
          | some a =>
            let a' : Asset :=
              { a with status := .ready, sha256 := some serverSha256,
                       version := version + 1 }
            (.ok a',
             { db1 with assets := db1.assets.map (fun x =>
                 if x.id == assetId && x.version == version then a' else x) })

/-- `renameAsset` from resolvers.ts: version-guarded update of `filename`
(re-sanitized) scoped to `(id, owner_id, version)`; the zero-row case of
`.select().single()` surfaces as `VERSION_CONFLICT`. -/
def renameAsset (env : Env) (db : DB) (userId assetId filename : String)
    (version : Nat) : Res Asset × DB :=
  match db.assets.find? (fun a =>
      a.id == assetId && a.owner_id == userId && a.version == version) with
  | none => (.err .VERSION_CONFLICT, db)
  | some a =>
    let a' : Asset :=
      { a with filename := sanitizeFilename env.nfd filename,
               version := version + 1 }
    (.ok a',
     { db with assets := db.assets.map (fun x =>
         if x.id == assetId && x.owner_id == userId && x.version == version
         then a' else x) })

/-- `deleteAsset` from resolvers.ts: locate the asset by (id, owner) —
absent ⇒ `NOT_FOUND`; then remove the blob from storage FIRST; then run the
version-guarded row delete.  A bare PostgREST `.delete()` reports no error
when zero rows match, so the version-mismatch case falls through to
`return true`. -/
def deleteAsset (db : DB) (userId assetId : String) (version : Nat) :
    Res Bool × DB :=
  match db.assets.find? (fun a => a.id == assetId && a.owner_id == userId) with
  | none => (.err .NOT_FOUND, db)
  | some a =>
    let db1 : DB := { db with storage := db.storage.filter (fun p => p != a.storage_path) }
    let db2 : DB := { db1 with assets := db1.assets.filter (fun x =>
        !(x.id == assetId && x.owner_id == userId && x.version == version)) }
    (.ok true, db2)

/-! ### Helper lemmas -/

/-- Marking tickets used does not change which ticket the finalize lookup
finds — only its `used` flag. -/
theorem find?_markTicketUsed (l : List UploadTicket) (aid uid : String)
    (t : UploadTicket)
    (h : l.find? (fun x => x.asset_id == aid && x.user_id == uid) = some t) :
    (l.map (fun x => if x.asset_id == aid then { x with used := true } else x)).find?
      (fun x => x.asset_id == aid && x.user_id == uid) = some { t with used := true } := by
  induction l with
  | nil => simp at h
  | cons hd tl ih =>
    by_cases hp : (hd.asset_id == aid && hd.user_id == uid) = true
    · rw [@List.find?_cons_of_pos UploadTicket
        (fun x => x.asset_id == aid && x.user_id == uid) hd tl hp] at h
      obtain rfl : hd = t := Option.some.inj h
      have ha : (hd.asset_id == aid) = true := ((Bool.and_eq_true _ _).mp hp).1
      have hmap : (if (hd.asset_id == aid) = true
            then ({ hd with used := true } : UploadTicket) else hd)
          = { hd with used := true } := if_pos ha
      simp only [List.map_cons]
      rw [hmap]
      exact @List.find?_cons_of_pos UploadTicket
        (fun x => x.asset_id == aid && x.user_id == uid) _ _ hp
    · rw [@List.find?_cons_of_neg UploadTicket
        (fun x => x.asset_id == aid && x.user_id == uid) hd tl hp] at h
      simp only [List.map_cons]
      have hkeep : ¬ (((if (hd.asset_id == aid) = true
            then ({ hd with used := true } : UploadTicket) else hd).asset_id == aid &&
          (if (hd.asset_id == aid) = true
            then ({ hd with used := true } : UploadTicket) else hd).user_id == uid) = true) := by
        by_cases ha : (hd.asset_id == aid) = true
        · rw [if_pos ha]; exact hp
        · rw [if_neg ha]; exact hp
      rw [@List.find?_cons_of_neg UploadTicket
        (fun x => x.asset_id == aid && x.user_id == uid) _ _ hkeep]
      exact ih h

/-- Membership in `insertDesc`. -/
theorem mem_insertDesc {x a : Asset} {l : List Asset} :
    x ∈ insertDesc a l ↔ x = a ∨ x ∈ l := by
  induction l with
  | nil => simp [insertDesc]
  | cons b rest ih =>
    unfold insertDesc
    by_cases hb : b.created_at < a.created_at
    · simp [hb]
    · simp only [if_neg hb, List.mem_cons, ih]
      tauto

/-- Membership in `sortDesc`. -/
theorem mem_sortDesc {x : Asset} {l : List Asset} :
    x ∈ sortDesc l ↔ x ∈ l := by
  induction l with
  | nil => simp [sortDesc]
  | cons a rest ih => simp [sortDesc, mem_insertDesc, ih]

/-- `insertDesc` preserves length. -/
theorem length_insertDesc (a : Asset) (l : List Asset) :
    (insertDesc a l).length = l.length + 1 := by
  induction l with
  | nil => simp [insertDesc]
  | cons b rest ih =>
    unfold insertDesc
    by_cases hb : b.created_at < a.created_at
    · simp [hb]
    · simp [if_neg hb, ih]

/-- `sortDesc` preserves length. -/
theorem length_sortDesc (l : List Asset) :
    (sortDesc l).length = l.length := by
  induction l with
  | nil => rfl
  | cons a rest ih => simp [sortDesc, length_insertDesc, ih]

/-- `insertDesc` preserves descending order. -/
theorem pairwise_insertDesc (a : Asset) (l : List Asset)
    (h : l.Pairwise (fun x y => y.created_at ≤ x.created_at)) :
    (insertDesc a l).Pairwise (fun x y => y.created_at ≤ x.created_at) := by
  induction l with
  | nil => simp [insertDesc]
  | cons b rest ih =>
    rw [List.pairwise_cons] at h
    unfold insertDesc
    by_cases hb : b.created_at < a.created_at
    · rw [if_pos hb]
      refine List.Pairwise.cons ?_ (List.Pairwise.cons h.1 h.2)
      intro y hy
      rcases List.mem_cons.mp hy with rfl | hy
      · exact Nat.le_of_lt hb
      · exact Nat.le_trans (h.1 y hy) (Nat.le_of_lt hb)
    · rw [if_neg hb]
      refine List.Pairwise.cons ?_ (ih h.2)
      intro y hy
      rcases mem_insertDesc.mp hy with rfl | hy
      · exact Nat.le_of_not_lt hb
      · exact h.1 y hy

/-- `sortDesc` sorts by `created_at` descending. -/
theorem pairwise_sortDesc (l : List Asset) :
    (sortDesc l).Pairwise (fun x y => y.created_at ≤ x.created_at) := by
  induction l with
  | nil => simp [sortDesc]
  | cons a rest ih => exact pairwise_insertDesc a _ ih

/-- `finalizeUpload` with no matching ticket fails `BAD_REQUEST` with the
state untouched. -/
theorem finalizeUpload_no_ticket (env : Env) (db : DB) (uid aid ch : String)
    (v now : Nat)
    (h : db.tickets.find? (fun x => x.asset_id == aid && x.user_id == uid) = none) :
    finalizeUpload env db uid aid ch v now = (.err .BAD_REQUEST, db) := by
  unfold finalizeUpload
  rw [h]

/-- `finalizeUpload` with a used ticket fails `BAD_REQUEST` with the state
untouched. -/
theorem finalizeUpload_used (env : Env) (db : DB) (uid aid ch : String)
    (v now : Nat) (t : UploadTicket)
    (ht : db.tickets.find? (fun x => x.asset_id == aid && x.user_id == uid) = some t)
    (hu : t.used = true) :
    finalizeUpload env db uid aid ch v now = (.err .BAD_REQUEST, db) := by
  unfold finalizeUpload
  rw [ht]
  dsimp only
  rw [if_pos hu]

/-- `finalizeUpload` with an expired (unused) ticket fails `BAD_REQUEST`
with the state untouched. -/
theorem finalizeUpload_expired (env : Env) (db : DB) (uid aid ch : String)
    (v now : Nat) (t : UploadTicket)
    (ht : db.tickets.find? (fun x => x.asset_id == aid && x.user_id == uid) = some t)
    (hu : t.used = false) (he : t.expires_at < now) :
    finalizeUpload env db uid aid ch v now = (.err .BAD_REQUEST, db) := by
  unfold finalizeUpload
  rw [ht]
  dsimp only
  rw [if_neg (by simp [hu]), if_pos he]

/-- `finalizeUpload` on a valid ticket whose stored bytes do not hash to
the client's claim (or are unreadable) marks the ticket used and applies
the UNGUARDED corrupt update. -/
theorem finalizeUpload_integrity (env : Env) (db : DB) (uid aid ch : String)
    (v now : Nat) (t : UploadTicket)
    (ht : db.tickets.find? (fun x => x.asset_id == aid && x.user_id == uid) = some t)
    (hu : t.used = false) (he : ¬ (t.expires_at < now))
    (hh : env.hashObject t.storage_path ≠ some ch) :
    finalizeUpload env db uid aid ch v now
      = (.err .INTEGRITY_ERROR, corruptAsset (markTicketUsed db aid) aid v) := by
  unfold finalizeUpload
  rw [ht]
  dsimp only
  rw [if_neg (by simp [hu]), if_neg he]
  cases hho : env.hashObject t.storage_path with
  | none => rfl
  | some s =>
    have hne : ch ≠ s := fun hcs => hh (by rw [hho, hcs])
    dsimp only
    rw [if_pos hne]

/-- `finalizeUpload` on a valid ticket with a matching hash but no asset
row at the expected version marks the ticket used and fails
`VERSION_CONFLICT` without touching the asset table. -/
theorem finalizeUpload_conflict (env : Env) (db : DB) (uid aid ch : String)
    (v now : Nat) (t : UploadTicket)
    (ht : db.tickets.find? (fun x => x.asset_id == aid && x.user_id == uid) = some t)
    (hu : t.used = false) (he : ¬ (t.expires_at < now))
    (hh : env.hashObject t.storage_path = some ch)
    (hfind : db.assets.find? (fun x => x.id == aid && x.version == v) = none) :
    finalizeUpload env db uid aid ch v now
      = (.err .VERSION_CONFLICT, markTicketUsed db aid) := by
  unfold finalizeUpload
  rw [ht]
  dsimp only
  rw [if_neg (by simp [hu]), if_neg he, hh]
  dsimp only
  rw [if_neg (by simp)]
  have hfind1 : (markTicketUsed db aid).assets.find?
      (fun x => x.id == aid && x.version == v) = none := hfind
  rw [hfind1]

/-- `finalizeUpload` on a valid ticket with a matching hash and an asset
row at the expected version performs the ready update. -/
theorem finalizeUpload_ready (env : Env) (db : DB) (uid aid ch : String)
    (v now : Nat) (t : UploadTicket) (old : Asset)
    (ht : db.tickets.find? (fun x => x.asset_id == aid && x.user_id == uid) = some t)
    (hu : t.used = false) (he : ¬ (t.expires_at < now))
    (hh : env.hashObject t.storage_path = some ch)
    (hfind : db.assets.find? (fun x => x.id == aid && x.version == v) = some old) :
    finalizeUpload env db uid aid ch v now
      = (.ok { old with status := .ready, sha256 := some ch, version := v + 1 },
         { markTicketUsed db aid with assets := db.assets.map (fun x =>
             if x.id == aid && x.version == v
             then { old with status := .ready, sha256 := some ch, version := v + 1 }
             else x) }) := by
  unfold finalizeUpload
  rw [ht]
  dsimp only
  rw [if_neg (by simp [hu]), if_neg he, hh]
  dsimp only
  rw [if_neg (by simp)]
  have hfind1 : (markTicketUsed db aid).assets.find?
      (fun x => x.id == aid && x.version == v) = some old := hfind
  rw [hfind1]
  rfl

/-- Inversion: every successful `finalizeUpload` went through a valid
ticket, a gateway hash equal to the client's claim, and the version-guarded
ready update. -/
theorem finalizeUpload_ok_elim (env : Env) (db : DB) (uid aid ch : String)
    (v now : Nat) (a : Asset) (db' : DB)
    (h : finalizeUpload env db uid aid ch v now = (.ok a, db')) :
    ∃ t old,
      db.tickets.find? (fun x => x.asset_id == aid && x.user_id == uid) = some t ∧
      t.used = false ∧ ¬ (t.expires_at < now) ∧
      env.hashObject t.storage_path = some ch ∧
      db.assets.find? (fun x => x.id == aid && x.version == v) = some old ∧
      a = { old with status := .ready, sha256 := some ch, version := v + 1 } ∧
      db' = { markTicketUsed db aid with assets := db.assets.map (fun x =>
          if x.id == aid && x.version == v then a else x) } := by
  cases ht : db.tickets.find? (fun x => x.asset_id == aid && x.user_id == uid) with
  | none =>
    rw [finalizeUpload_no_ticket env db uid aid ch v now ht] at h
    exact absurd (congrArg Prod.fst h) (by simp)
  | some t =>
    cases hu : t.used with
    | true =>
      rw [finalizeUpload_used env db uid aid ch v now t ht hu] at h
      exact absurd (congrArg Prod.fst h) (by simp)
    | false =>
      by_cases he : t.expires_at < now
      · rw [finalizeUpload_expired env db uid aid ch v now t ht hu he] at h
        exact absurd (congrArg Prod.fst h) (by simp)
      · by_cases hh : env.hashObject t.storage_path = some ch
        · cases hfind : db.assets.find? (fun x => x.id == aid && x.version == v) with
          | none =>
            rw [finalizeUpload_conflict env db uid aid ch v now t ht hu he hh hfind] at h
            exact absurd (congrArg Prod.fst h) (by simp)
          | some old =>
            rw [finalizeUpload_ready env db uid aid ch v now t old ht hu he hh hfind] at h
            have h1 := congrArg Prod.fst h
            have h2 := congrArg Prod.snd h
            simp only at h1 h2
            have ha : a = { old with status := .ready, sha256 := some ch, version := v + 1 } :=
              (Res.ok.inj h1).symm
            refine ⟨t, old, rfl, hu, he, hh, rfl, ha, ?_⟩
            rw [← h2, ha]
        · rw [finalizeUpload_integrity env db uid aid ch v now t ht hu he hh] at h
          exact absurd (congrArg Prod.fst h) (by simp)

/-- `renameAsset` with no row at (id, owner, version) fails
`VERSION_CONFLICT` with the state untouched. -/
theorem renameAsset_none (env : Env) (db : DB) (uid aid fn : String) (v : Nat)
    (h : db.assets.find?
      (fun x => x.id == aid && x.owner_id == uid && x.version == v) = none) :
    renameAsset env db uid aid fn v = (.err .VERSION_CONFLICT, db) := by
  unfold renameAsset
  rw [h]

/-- `renameAsset` with a row at (id, owner, version) applies the guarded
update. -/
theorem renameAsset_some (env : Env) (db : DB) (uid aid fn : String) (v : Nat)
    (old : Asset)
    (h : db.assets.find?
      (fun x => x.id == aid && x.owner_id == uid && x.version == v) = some old) :
    renameAsset env db uid aid fn v
      = (.ok { old with filename := sanitizeFilename env.nfd fn, version := v + 1 },
         { db with assets := db.assets.map (fun x =>
             if x.id == aid && x.owner_id == uid && x.version == v
             then { old with filename := sanitizeFilename env.nfd fn, version := v + 1 }
             else x) }) := by
  unfold renameAsset
  rw [h]

/-- Whatever the verification outcome, once `finalizeUpload` gets past the
used/expiry checks the resulting ticket table is the marked one. -/
theorem finalizeUpload_tickets (env : Env) (db : DB) (uid aid ch : String)
    (v now : Nat) (t : UploadTicket)
    (ht : db.tickets.find? (fun x => x.asset_id == aid && x.user_id == uid) = some t)
    (hu : t.used = false) (he : ¬ (t.expires_at < now)) :
    (finalizeUpload env db uid aid ch v now).2.tickets
      = (markTicketUsed db aid).tickets := by
  by_cases hh : env.hashObject t.storage_path = some ch
  · cases hfind : db.assets.find? (fun x => x.id == aid && x.version == v) with
    | none => rw [finalizeUpload_conflict env db uid aid ch v now t ht hu he hh hfind]
    | some old => rw [finalizeUpload_ready env db uid aid ch v now t old ht hu he hh hfind]
  · rw [finalizeUpload_integrity env db uid aid ch v now t ht hu he hh]
    rfl

/-- In the database produced by the unguarded corrupt update, every row
with the finalized asset's id carries version `expectedVersion + 1`,
whatever version it had before. -/
theorem corruptAsset_version (db : DB) (aid : String) (v : Nat) :
    ∀ x ∈ (corruptAsset db aid v).assets, x.id = aid → x.version = v + 1 := by
  intro x hx hid
  unfold corruptAsset at hx
  simp only [List.mem_map] at hx
  obtain ⟨y, _, hy⟩ := hx
  by_cases hya : (y.id == aid) = true
  · rw [if_pos hya] at hy
    rw [← hy]
  · rw [if_neg hya] at hy
    rw [← hy] at hid
    exact absurd (beq_iff_eq.mpr hid) hya

/-! ### Claims -/

/-- C1: every successful `finalizeUpload` persists `status = ready`,
`sha256` equal to the hash the Blob Gateway computed from the stored bytes
at the ticket's path (never the client-supplied hash written directly),
and `version = expectedVersion + 1`; the ready update applies only when a
stored row still carries `expectedVersion`, and when no row matches the
call fails `VERSION_CONFLICT` leaving the asset table as it was. -/
theorem C1_finalize_success_spec (env : Env) (db : DB) (uid aid ch : String)
    (v now : Nat) :
    (∀ a db', finalizeUpload env db uid aid ch v now = (.ok a, db') →
      a.status = .ready ∧ a.version = v + 1 ∧
      (∃ t, db.tickets.find? (fun x => x.asset_id == aid && x.user_id == uid) = some t ∧
        env.hashObject t.storage_path = some ch ∧
        a.sha256 = env.hashObject t.storage_path) ∧
      (∃ old, db.assets.find? (fun x => x.id == aid && x.version == v) = some old ∧
        old.version = v ∧
        a = { old with status := .ready, sha256 := some ch, version := v + 1 }) ∧
      a ∈ db'.assets) ∧
    (∀ t, db.tickets.find? (fun x => x.asset_id == aid && x.user_id == uid) = some t →
      t.used = false → ¬ (t.expires_at < now) →
      env.hashObject t.storage_path = some ch →
      db.assets.find? (fun x => x.id == aid && x.version == v) = none →
      finalizeUpload env db uid aid ch v now
        = (.err .VERSION_CONFLICT, markTicketUsed db aid)) := by
  constructor
  · intro a db' h
    obtain ⟨t, old, ht, hu, he, hh, hfind, ha, hdb⟩ :=
      finalizeUpload_ok_elim env db uid aid ch v now a db' h
    have hpred0 := @List.find?_some _ _ _ _ hfind
    have hpred : (old.id == aid && old.version == v) = true := hpred0
    have hov : old.version = v := beq_iff_eq.mp ((Bool.and_eq_true _ _).mp hpred).2
    refine ⟨by rw [ha], by rw [ha], ⟨t, ht, hh, by rw [ha, hh]⟩,
      ⟨old, hfind, hov, ha⟩, ?_⟩
    rw [hdb]
    show a ∈ db.assets.map (fun x => if x.id == aid && x.version == v then a else x)
    exact List.mem_map.mpr ⟨old, List.mem_of_find?_eq_some hfind, by rw [if_pos hpred]⟩
  · intro t ht hu he hh hfind
    exact finalizeUpload_conflict env db uid aid ch v now t ht hu he hh hfind

/-- C2: a finalize against an already-used or expired ticket fails
`BAD_REQUEST` with no state change; once a finalize gets past those checks
the ticket is marked used whatever the outcome, and every subsequent
finalize with that ticket fails `BAD_REQUEST`. -/
theorem C2_ticket_single_use (env : Env) (db : DB) (uid aid ch : String)
    (v now : Nat) (t : UploadTicket)
    (ht : db.tickets.find? (fun x => x.asset_id == aid && x.user_id == uid) = some t) :
    (t.used = true → finalizeUpload env db uid aid ch v now = (.err .BAD_REQUEST, db)) ∧
    (t.expires_at < now → finalizeUpload env db uid aid ch v now = (.err .BAD_REQUEST, db)) ∧
    (t.used = false → ¬ (t.expires_at < now) →
      ∀ r db', finalizeUpload env db uid aid ch v now = (r, db') →
        db'.tickets.find? (fun x => x.asset_id == aid && x.user_id == uid)
          = some { t with used := true } ∧
        ∀ env2 ch2 v2 now2,
          finalizeUpload env2 db' uid aid ch2 v2 now2 = (.err .BAD_REQUEST, db')) := by
  refine ⟨fun hu => finalizeUpload_used env db uid aid ch v now t ht hu, ?_, ?_⟩
  · intro he
    cases hu : t.used with
    | true => exact finalizeUpload_used env db uid aid ch v now t ht hu
    | false => exact finalizeUpload_expired env db uid aid ch v now t ht hu he
  · intro hu he r db' h
    have hdb' : db'.tickets = (markTicketUsed db aid).tickets := by
      have := finalizeUpload_tickets env db uid aid ch v now t ht hu he
      rw [h] at this
      exact this
    have hfound : db'.tickets.find? (fun x => x.asset_id == aid && x.user_id == uid)
        = some { t with used := true } := by
      rw [hdb']
      exact find?_markTicketUsed db.tickets aid uid t ht
    refine ⟨hfound, ?_⟩
    intro env2 ch2 v2 now2
    exact finalizeUpload_used env2 db' uid aid ch2 v2 now2 { t with used := true } hfound rfl

/-- C3 amended: the version-guarded mutations — `renameAsset` and the
finalizer's ready update — bump the stored version by exactly one on
success and reject a mismatch with the stored state unchanged; the
finalizer's corrupt transition, by contrast, carries NO version guard: it
rewrites the row to `version = expectedVersion + 1` whatever version the
row actually stored. -/
theorem C3_version_guard_amended (env : Env) (db : DB)
    (uid aid fn ch : String) (v now : Nat) :
    (∀ a db', renameAsset env db uid aid fn v = (.ok a, db') →
      ∃ old, old ∈ db.assets ∧ old.version = v ∧ a.version = old.version + 1) ∧
    (db.assets.find?
        (fun x => x.id == aid && x.owner_id == uid && x.version == v) = none →
      renameAsset env db uid aid fn v = (.err .VERSION_CONFLICT, db)) ∧
    (∀ a db', finalizeUpload env db uid aid ch v now = (.ok a, db') →
      ∃ old, old ∈ db.assets ∧ old.version = v ∧ a.version = old.version + 1) ∧
    (∀ t, db.tickets.find? (fun x => x.asset_id == aid && x.user_id == uid) = some t →
      t.used = false → ¬ (t.expires_at < now) →
      env.hashObject t.storage_path ≠ some ch →
      finalizeUpload env db uid aid ch v now
        = (.err .INTEGRITY_ERROR, corruptAsset (markTicketUsed db aid) aid v) ∧
      ∀ x ∈ (corruptAsset (markTicketUsed db aid) aid v).assets,
        x.id = aid → x.version = v + 1) := by
  refine ⟨?_, renameAsset_none env db uid aid fn v, ?_, ?_⟩
  · intro a db' h
    cases hfind : db.assets.find?
        (fun x => x.id == aid && x.owner_id == uid && x.version == v) with
    | none =>
      rw [renameAsset_none env db uid aid fn v hfind] at h
      exact absurd (congrArg Prod.fst h) (by simp)
    | some old =>
      rw [renameAsset_some env db uid aid fn v old hfind] at h
      have h1 := congrArg Prod.fst h
      simp only at h1
      have hpred := @List.find?_some _ _ _ _ hfind
      simp only [Bool.and_eq_true, beq_iff_eq] at hpred
      refine ⟨old, List.mem_of_find?_eq_some hfind, hpred.2, ?_⟩
      rw [← Res.ok.inj h1, hpred.2]
  · intro a db' h
    obtain ⟨t, old, ht, hu, he, hh, hfind, ha, _⟩ :=
      finalizeUpload_ok_elim env db uid aid ch v now a db' h
    have hpred := @List.find?_some _ _ _ _ hfind
    simp only [Bool.and_eq_true, beq_iff_eq] at hpred
    refine ⟨old, List.mem_of_find?_eq_some hfind, hpred.2, ?_⟩
    rw [ha, hpred.2]
  · intro t ht hu he hh
    exact ⟨finalizeUpload_integrity env db uid aid ch v now t ht hu he hh,
      corruptAsset_version (markTicketUsed db aid) aid v⟩

/-- C5 amended: a caller who is not the owner, holds no share and hence —
tickets being issued only to an asset's creator — has no upload ticket for
the asset, receives `NOT_FOUND` from `getDownloadUrl` but `BAD_REQUEST`
(not `NOT_FOUND`) from `finalizeUpload`; both answers are computed without
reference to the asset's own row, identically for an existing and for a
nonexistent asset, so neither reveals existence. -/
theorem C5_access_indistinguishable (env : Env) (db : DB)
    (w aid ch : String) (v now : Nat)
    (hown : ∀ a ∈ db.assets, a.id = aid → ¬ a.owner_id = w)
    (hshare : ∀ s ∈ db.shares, s.asset_id = aid → ¬ s.to_user = w)
    (hticket : ∀ t ∈ db.tickets, t.asset_id = aid → ¬ t.user_id = w) :
    getDownloadUrl env db w aid now = (.err .NOT_FOUND, db) ∧
    finalizeUpload env db w aid ch v now = (.err .BAD_REQUEST, db) := by
  constructor
  · have hq : downloadAccessQuery db w aid = none := by
      unfold downloadAccessQuery
      rw [List.find?_eq_none]
      intro a hamem
      simp only [Bool.and_eq_true, Bool.or_eq_true, beq_iff_eq, List.any_eq_true,
        not_and]
      intro h12 hready
      obtain ⟨⟨haid, -⟩, hacc⟩ := h12
      rcases hacc with howner | ⟨s, hsmem, hs1, hs2⟩
      · exact hown a hamem haid howner
      · exact hshare s hsmem (hs1.trans haid) hs2
    unfold getDownloadUrl
    rw [hq]
  · apply finalizeUpload_no_ticket
    rw [List.find?_eq_none]
    intro t htmem
    simp only [Bool.and_eq_true, beq_iff_eq, not_and]
    exact hticket t htmem

/-- C9: every successful `getDownloadUrl` call passes the asset's storage
path to the gateway signer with a ttl of exactly 90 seconds at that very
request (the URL is the signer's fresh answer, never a cached value),
returns `expiresAt` 90 seconds after issuance, and appends exactly one
`download_audit` row for (asset, caller, now) while leaving every other
table untouched. -/
theorem C9_download_link_spec (env : Env) (db : DB) (uid aid : String)
    (now : Nat) (r : DownloadLink) (db2 : DB)
    (h : getDownloadUrl env db uid aid now = (.ok r, db2)) :
    ∃ asset, downloadAccessQuery db uid aid = some asset ∧
      env.signDownloadUrl asset.storage_path 90 = some r.url ∧
      r.expiresAt = now + 90 * 1000 ∧
      db2.audits = db.audits ++ [{ asset_id := aid, user_id := uid, at_ts := now }] ∧
      db2.assets = db.assets ∧ db2.tickets = db.tickets ∧
      db2.shares = db.shares ∧ db2.storage = db.storage := by
  unfold getDownloadUrl at h
  cases hq : downloadAccessQuery db uid aid with
  | none =>
    rw [hq] at h
    exact absurd (congrArg Prod.fst h) (by simp)
  | some asset =>
    rw [hq] at h
    dsimp only at h
    cases hs : env.signDownloadUrl asset.storage_path 90 with
    | none =>
      rw [hs] at h
      exact absurd (congrArg Prod.fst h) (by simp)
    | some url =>
      rw [hs] at h
      dsimp only at h
      have h1 := congrArg Prod.fst h
      have h2 := congrArg Prod.snd h
      dsimp only at h1 h2
      have hr : r = { url := url, expiresAt := now + 90 * 1000 } := (Res.ok.inj h1).symm
      refine ⟨asset, rfl, ?_, by rw [hr], ?_, ?_, ?_, ?_, ?_⟩
      · rw [hr, hs]
      all_goals rw [← h2]

/-- Everything a row of the filtered `myAssets` row set satisfies. -/
theorem mem_myAssetsRows {db : DB} {uid : String} {after : Option Nat}
    {q : Option String} {a : Asset} (h : a ∈ myAssetsRows db uid after q) :
    a ∈ db.assets ∧ a.owner_id = uid ∧
    (∀ t, after = some t → t < a.created_at) ∧
    (∀ s, q = some s → ilikeContains a.filename s = true) := by
  unfold myAssetsRows at h
  cases after with
  | none =>
    cases q with
    | none =>
      simp only [List.mem_filter, beq_iff_eq] at h
      refine ⟨h.1, h.2, ?_, ?_⟩
      · intro t ht; cases ht
      · intro s hs; cases hs
    | some s0 =>
      simp only [List.mem_filter, beq_iff_eq] at h
      refine ⟨h.1.1, h.1.2, ?_, ?_⟩
      · intro t ht; cases ht
      · intro s hs; cases hs; exact h.2
  | some t0 =>
    cases q with
    | none =>
      simp only [List.mem_filter, beq_iff_eq, decide_eq_true_eq] at h
      refine ⟨h.1.1, h.1.2, ?_, ?_⟩
      · intro t ht; cases ht; exact h.2
      · intro s hs; cases hs
    | some s0 =>
      simp only [List.mem_filter, beq_iff_eq, decide_eq_true_eq] at h
      refine ⟨h.1.1.1, h.1.1.2, ?_, ?_⟩
      · intro t ht; cases ht; exact h.2
      · intro s hs; cases hs; exact h.1.2

/-- C8 amended: `myAssets` returns only the caller's assets, honors the
case-insensitive substring filter, is ordered by creation time descending
and bounded by `first`; the cursor, however, filters to creation times
STRICTLY GREATER than the cursor value, which under the descending order
re-selects the newest (already seen) assets instead of paging past them. -/
theorem C8_myAssets_amended (db : DB) (uid : String) (first : Nat)
    (after : Option Nat) (q : Option String) :
    (∀ e ∈ (myAssets db uid first after q).edges,
      e.node.owner_id = uid ∧ e.node ∈ db.assets ∧
      (∀ t, after = some t → t < e.node.created_at) ∧
      (∀ s, q = some s → ilikeContains e.node.filename s = true)) ∧
    (myAssets db uid first after q).edges.length ≤ first ∧
    (myAssets db uid first after q).edges.Pairwise
      (fun x y => y.node.created_at ≤ x.node.created_at) := by
  refine ⟨?_, ?_, ?_⟩
  · intro e he
    unfold myAssets at he
    simp only [List.mem_map] at he
    obtain ⟨a, ha, hea⟩ := he
    have hmem : a ∈ myAssetsRows db uid after q :=
      mem_sortDesc.mp ((List.take_sublist _ _).subset ha)
    obtain ⟨h1, h2, h3, h4⟩ := mem_myAssetsRows hmem
    rw [← hea]
    exact ⟨h2, h1, h3, h4⟩
  · show (((sortDesc (myAssetsRows db uid after q)).take first).map _).length ≤ first
    rw [List.length_map]
    exact List.length_take_le _ _
  · show (((sortDesc (myAssetsRows db uid after q)).take first).map _).Pairwise _
    rw [List.pairwise_map]
    exact List.Pairwise.sublist (List.take_sublist _ _)
      (pairwise_sortDesc (myAssetsRows db uid after q))

/-- C10: `hasNextPage` is `edges.length == first` — true exactly when the
page is full, with no regard to whether further assets exist: when the
matching row set numbers exactly `first`, the page already contains every
matching asset and still reports `hasNextPage = true`. -/
theorem C10_hasNextPage_spec (db : DB) (uid : String) (first : Nat)
    (after : Option Nat) (q : Option String) :
    ((myAssets db uid first after q).hasNextPage = true ↔
      (myAssets db uid first after q).edges.length = first) ∧
    ((myAssetsRows db uid after q).length = first →
      (myAssets db uid first after q).edges.length = first ∧
      (myAssets db uid first after q).hasNextPage = true ∧
      (myAssets db uid first after q).edges.map (fun e => e.node)
        = sortDesc (myAssetsRows db uid after q)) := by
  have hiff : (myAssets db uid first after q).hasNextPage = true ↔
      (myAssets db uid first after q).edges.length = first := beq_iff_eq
  refine ⟨hiff, ?_⟩
  intro hlen
  have hsd : (sortDesc (myAssetsRows db uid after q)).length = first := by
    rw [length_sortDesc]; exact hlen
  have htake : (sortDesc (myAssetsRows db uid after q)).take first
      = sortDesc (myAssetsRows db uid after q) :=
    List.take_of_length_le (Nat.le_of_eq hsd)
  have hel : (myAssets db uid first after q).edges.length = first := by
    show (((sortDesc (myAssetsRows db uid after q)).take first).map _).length = first
    rw [List.length_map, htake, hsd]
  refine ⟨hel, hiff.mpr hel, ?_⟩
  show (((sortDesc (myAssetsRows db uid after q)).take first).map _).map _ = _
  rw [htake, List.map_map]
  exact List.map_id' _

/-- C6 amended: the storage path a successful `issueUploadTicket` derives
is `{ownerId}/{year}/{paddedMonth}/{u}-{sanitizedFilename}` where `u` is a
SECOND, fresh uuidv4 draw — not the id of the asset the call creates and
returns: whenever the uuid stream is injective the embedded uuid differs
from the returned assetId, so the path never matches the claimed
`{ownerId}/{year}/{month}/{newAssetId}-{sanitizedFilename}` layout. -/
theorem C6_storage_path_amended (env : Env) (db : DB) (k : Nat)
    (uid fn mime : String) (size year month now : Nat) (nonce : String)
    (p : UploadTicketPayload) (db2 : DB)
    (h : createUploadUrl env db k uid fn mime size year month now nonce = (.ok p, db2)) :
    p.assetId = env.uuid k ∧
    p.storagePath = uid ++ "/" ++ toString year ++ "/" ++ padMonth month ++ "/" ++
      env.uuid (k + 1) ++ "-" ++ sanitizeFilename env.nfd fn ∧
    (Function.Injective env.uuid →
      p.storagePath ≠ uid ++ "/" ++ toString year ++ "/" ++ padMonth month ++ "/" ++
        p.assetId ++ "-" ++ sanitizeFilename env.nfd fn) := by
  unfold createUploadUrl at h
  split at h
  · exact absurd (congrArg Prod.fst h) (by simp)
  · split at h
    · exact absurd (congrArg Prod.fst h) (by simp)
    · dsimp only at h
      cases hs : env.signUploadUrl (generateStoragePath env (k + 1) uid fn year month) with
      | none =>
        rw [hs] at h
        exact absurd (congrArg Prod.fst h) (by simp)
      | some url =>
        rw [hs] at h
        dsimp only at h
        have h1 := congrArg Prod.fst h
        dsimp only at h1
        have hp : p = { assetId := env.uuid k,
                        storagePath := generateStoragePath env (k + 1) uid fn year month,
                        uploadUrl := url,
                        expiresAt := now + 10 * 60 * 1000,
                        nonce := nonce } := (Res.ok.inj h1).symm
        refine ⟨by rw [hp], by rw [hp]; rfl, ?_⟩
        intro hinj heq
        rw [hp] at heq
        have heq2 : generateStoragePath env (k + 1) uid fn year month
            = uid ++ "/" ++ toString year ++ "/" ++ padMonth month ++ "/" ++
              env.uuid k ++ "-" ++ sanitizeFilename env.nfd fn := heq
        have hdata := congrArg String.data heq2
        simp only [generateStoragePath, String.data_append, List.append_assoc] at hdata
        have hcancel := List.append_cancel_left (List.append_cancel_left
          (List.append_cancel_left (List.append_cancel_left
            (List.append_cancel_left (List.append_cancel_left hdata)))))
        have huuid : (env.uuid (k + 1)).data = (env.uuid k).data :=
          List.append_cancel_right hcancel
        have : env.uuid (k + 1) = env.uuid k := by
          cases hu1 : env.uuid (k + 1)
          cases hu2 : env.uuid k
          rw [hu1, hu2] at huuid
          simp only at huuid
          rw [huuid]
        exact Nat.succ_ne_self k (hinj this)

/-! ### Concrete instances: fixtures, counterexamples and witnesses -/

/-- Deterministic environment for the concrete instances below: the
gateway hashes every stored object to "h", signing echoes the path and
ttl, NFD is the identity (exact on ASCII input), and the uuid stream is
`uuid0, uuid1, ...`. -/
def envW : Env :=
  { hashObject := fun _ => some "h",
    signDownloadUrl := fun p ttl => some (p ++ "?ttl=" ++ toString ttl),
    signUploadUrl := fun p => some (p ++ "?upload"),
    nfd := id,
    uuid := fun n => "uuid" ++ toString n }

/-- A draft asset owned by `u1` at version 1. -/
def assetW : Asset :=
  { id := "a1", owner_id := "u1", filename := "f.png", mime := "image/png",
    size := 4, storage_path := "p1", sha256 := none, status := .draft,
    version := 1, created_at := 5 }

/-- An unused ticket for `assetW`, expiring at 100. -/
def ticketW : UploadTicket :=
  { asset_id := "a1", user_id := "u1", nonce := "n", mime := "image/png",
    size := 4, storage_path := "p1", expires_at := 100, used := false }

/-- The state right after ticket issuance for `assetW`. -/
def dbW : DB :=
  { assets := [assetW], tickets := [ticketW], shares := [], audits := [],
    storage := ["p1"] }

/-- `assetW` after a successful finalize. -/
def readyW : Asset :=
  { assetW with status := .ready, sha256 := some "h", version := 2 }

/-- The state after the successful finalize of `dbW`. -/
def dbW2 : DB :=
  { assets := [readyW], tickets := [{ ticketW with used := true }],
    shares := [], audits := [], storage := ["p1"] }

/-- `dbW` with the asset at stored version 5 (and the ticket still valid). -/
def dbV5 : DB := { dbW with assets := [{ assetW with version := 5 }] }

/-- A ready asset owned by `u1` with no share rows, no tickets. -/
def dbOwnerOnly : DB :=
  { assets := [{ assetW with status := .ready }], tickets := [], shares := [],
    audits := [], storage := ["p1"] }

/-- `dbOwnerOnly` plus a share to `w` that forbids downloading. -/
def dbShareNoDl : DB :=
  { dbOwnerOnly with
      shares := [{ asset_id := "a1", to_user := "w", can_download := false }] }

/-- The renamed asset produced from `dbOwnerOnly`. -/
def renamedW : Asset :=
  { assetW with status := .ready, filename := "g.png", version := 2 }

/-- The state after the rename. -/
def dbRenW : DB := { dbOwnerOnly with assets := [renamedW] }

/-- The empty state. -/
def dbEmpty : DB :=
  { assets := [], tickets := [], shares := [], audits := [], storage := [] }

/-- The payload `createUploadUrl envW dbEmpty 0 "owner" "file.txt" ...`
returns: assetId is uuid draw 0, but the path embeds uuid draw 1. -/
def payloadW : UploadTicketPayload :=
  { assetId := "uuid0", storagePath := "owner/2025/03/uuid1-file.txt",
    uploadUrl := "owner/2025/03/uuid1-file.txt?upload",
    expiresAt := 600007, nonce := "n" }

/-- The asset row that call inserts. -/
def assetC6 : Asset :=
  { id := "uuid0", owner_id := "owner", filename := "file.txt",
    mime := "image/png", size := 10,
    storage_path := "owner/2025/03/uuid1-file.txt", sha256 := none,
    status := .draft, version := 1, created_at := 7 }

/-- The ticket row that call inserts. -/
def ticketC6 : UploadTicket :=
  { asset_id := "uuid0", user_id := "owner", nonce := "n",
    mime := "image/png", size := 10,
    storage_path := "owner/2025/03/uuid1-file.txt", expires_at := 600007,
    used := false }

/-- The state after that call. -/
def dbC6 : DB :=
  { assets := [assetC6], tickets := [ticketC6], shares := [], audits := [],
    storage := [] }

/-- Ready assets `a1, a2, a3` of `u1` created at times 1, 2, 3. -/
def mkAssetW (i : Nat) : Asset :=
  { assetW with
      id := "a" ++ toString i, storage_path := "p" ++ toString i,
      status := .ready, created_at := i }

/-- Three-asset listing fixture. -/
def dbPage : DB :=
  { assets := [mkAssetW 1, mkAssetW 2, mkAssetW 3], tickets := [],
    shares := [], audits := [], storage := [] }

/-- The edge `myAssets` builds for the newest asset of `dbPage`. -/
def edge3W : Edge :=
  { cursor := 3, node := mkAssetW 3, isOwner := true, canDownload := true }

/-- The link a successful concrete `getDownloadUrl` returns. -/
def linkW : DownloadLink := { url := "p1?ttl=90", expiresAt := 90000 }

/-- `dbShareNoDl` after the owner fetched a download link at time 0. -/
def dbAudited : DB :=
  { dbShareNoDl with
      audits := [{ asset_id := "a1", user_id := "u1", at_ts := 0 }] }

/-- Witness for C1: the concrete finalize of `dbW` yields a ready asset at
version 2, and against `dbV5` (stored version 5 ≠ expected 1) the same
call fails VERSION_CONFLICT. -/
theorem C1_witness :
    (readyW.status = .ready ∧ readyW.version = 2) ∧
    finalizeUpload envW dbV5 "u1" "a1" "h" 1 50
      = (.err .VERSION_CONFLICT, markTicketUsed dbV5 "a1") := by
  constructor
  · have hfull := (C1_finalize_success_spec envW dbW "u1" "a1" "h" 1 50).1
      readyW dbW2 (by decide)
    exact ⟨hfull.1, hfull.2.1⟩
  · exact (C1_finalize_success_spec envW dbV5 "u1" "a1" "h" 1 50).2
      ticketW (by decide) (by decide) (by decide) (by decide) (by decide)

/-- Witness for C2: a used ticket and an expired ticket are both refused
with the state unchanged, and after a successful finalize the very same
ticket is refused again. -/
theorem C2_witness :
    finalizeUpload envW dbW2 "u1" "a1" "h" 2 60 = (.err .BAD_REQUEST, dbW2) ∧
    finalizeUpload envW dbW "u1" "a1" "h" 1 200 = (.err .BAD_REQUEST, dbW) ∧
    finalizeUpload envW dbW2 "u1" "a1" "x" 5 70 = (.err .BAD_REQUEST, dbW2) := by
  refine ⟨?_, ?_, ?_⟩
  · exact (C2_ticket_single_use envW dbW2 "u1" "a1" "h" 2 60
      { ticketW with used := true } (by decide)).1 rfl
  · exact (C2_ticket_single_use envW dbW "u1" "a1" "h" 1 200
      ticketW (by decide)).2.1 (by decide)
  · have h3 := ((C2_ticket_single_use envW dbW "u1" "a1" "h" 1 50
      ticketW (by decide)).2.2 rfl (by decide) (.ok readyW) dbW2 (by decide)).2
    exact h3 envW "x" 5 70

/-- C3 counterexample: with the asset stored at version 5, a finalize
carrying expectedVersion 1 and a wrong hash is NOT rejected: the stored
row changes to corrupt with version 2 — neither unchanged nor 5 + 1. -/
theorem C3_counterexample :
    (dbV5.assets.map (fun a => (a.status, a.version)) = [(.draft, 5)]) ∧
    (finalizeUpload envW dbV5 "u1" "a1" "wrong" 1 50).1 = .err .INTEGRITY_ERROR ∧
    ((finalizeUpload envW dbV5 "u1" "a1" "wrong" 1 50).2.assets.map
      (fun a => (a.status, a.version)) = [(.corrupt, 2)]) ∧
    (2 : Nat) ≠ 5 + 1 := by decide

/-- Witness for C3 (amended): rename bumps 1→2; a rename with a stale
version is rejected unchanged; the corrupt transition applies unguarded. -/
theorem C3_witness :
    renamedW.version = 2 ∧
    renameAsset envW dbOwnerOnly "u1" "a1" "g.png" 2
      = (.err .VERSION_CONFLICT, dbOwnerOnly) ∧
    finalizeUpload envW dbV5 "u1" "a1" "wrong" 1 50
      = (.err .INTEGRITY_ERROR, corruptAsset (markTicketUsed dbV5 "a1") "a1" 1) := by
  refine ⟨?_, ?_, ?_⟩
  · obtain ⟨old, -, hov, hv⟩ := (C3_version_guard_amended envW dbOwnerOnly
      "u1" "a1" "g.png" "h" 1 0).1 renamedW dbRenW (by decide)
    rw [hov] at hv
    exact hv
  · exact (C3_version_guard_amended envW dbOwnerOnly "u1" "a1" "g.png" "h" 2 0).2.1
      (by decide)
  · exact ((C3_version_guard_amended envW dbV5 "u1" "a1" "g.png" "wrong" 1 50).2.2.2
      ticketW (by decide) (by decide) (by decide) (by decide)).1

/-- C4 (code bug): the `asset_share!inner` access query denies the owner
of a ready asset that has no share rows (NOT_FOUND), yet issues a signed
URL to a grantee whose share carries `can_download = false`. -/
theorem C4_download_access_bug :
    (getDownloadUrl envW dbOwnerOnly "u1" "a1" 0).1 = .err .NOT_FOUND ∧
    (getDownloadUrl envW dbShareNoDl "w" "a1" 0).1
      = .ok { url := "p1?ttl=90", expiresAt := 90000 } := by decide

/-- C5 counterexample: a caller with no ownership and no share calling
`finalizeUpload` on another user's asset receives BAD_REQUEST — not the
NOT_FOUND the claim requires. -/
theorem C5_counterexample :
    finalizeUpload envW dbOwnerOnly "w" "a1" "h" 1 0
      = (.err .BAD_REQUEST, dbOwnerOnly) ∧
    ErrCode.BAD_REQUEST ≠ ErrCode.NOT_FOUND := by decide

/-- Witness for C5 (amended). -/
theorem C5_witness :
    getDownloadUrl envW dbOwnerOnly "w" "a1" 0 = (.err .NOT_FOUND, dbOwnerOnly) ∧
    finalizeUpload envW dbOwnerOnly "w" "a1" "h" 1 0
      = (.err .BAD_REQUEST, dbOwnerOnly) :=
  C5_access_indistinguishable envW dbOwnerOnly "w" "a1" "h" 1 0
    (by decide) (by decide) (by decide)

/-- C6 counterexample: the storage path the call returns does not match
the claimed `{ownerId}/{year}/{month}/{newAssetId}-{sanitizedFilename}`
layout built from the assetId the same call returns. -/
theorem C6_counterexample :
    (createUploadUrl envW dbEmpty 0 "owner" "file.txt" "image/png" 10 2025 3 7 "n").1
      = .ok payloadW ∧
    payloadW.storagePath
      ≠ "owner" ++ "/" ++ "2025" ++ "/" ++ "03" ++ "/" ++ payloadW.assetId
        ++ "-" ++ "file.txt" := by decide

/-- Witness for C6 (amended). -/
theorem C6_witness :
    payloadW.assetId = "uuid0" ∧
    payloadW.storagePath = "owner/2025/03/uuid1-file.txt" := by
  obtain ⟨h1, h2, -⟩ := C6_storage_path_amended envW dbEmpty 0 "owner" "file.txt"
    "image/png" 10 2025 3 7 "n" payloadW dbC6 (by decide)
  refine ⟨h1, ?_⟩
  rw [h2]
  decide

/-- C7 (code bug): `deleteAsset` with a stale expectedVersion removes the
blob FIRST; the version-guarded row delete then matches zero rows, which a
bare PostgREST delete does not report as an error — so the call returns
success: the asset row survives, its backing blob is gone, and no
VERSION_CONFLICT is raised. -/
theorem C7_delete_version_bug :
    dbOwnerOnly.storage = ["p1"] ∧
    deleteAsset dbOwnerOnly "u1" "a1" 2
      = (.ok true, { dbOwnerOnly with storage := [] }) ∧
    (deleteAsset dbOwnerOnly "u1" "a1" 2).2.assets.map (fun a => a.id)
      = ["a1"] ∧
    (deleteAsset dbOwnerOnly "u1" "a1" 2).2.storage = [] := by decide

/-- C8 counterexample: with assets created at 1, 2, 3 and page size 2, the
first page is [a3, a2] with endCursor 2; passing that cursor back returns
[a3] — an asset from the already-seen page — instead of paging onward. -/
theorem C8_counterexample :
    ((myAssets dbPage "u1" 2 none none).edges.map (fun e => e.node.id)
      = ["a3", "a2"]) ∧
    (myAssets dbPage "u1" 2 none none).endCursor = some 2 ∧
    ((myAssets dbPage "u1" 2 (some 2) none).edges.map (fun e => e.node.id)
      = ["a3"]) := by decide

/-- Witness for C8 (amended). -/
theorem C8_witness :
    edge3W.node.owner_id = "u1" ∧ 2 < edge3W.node.created_at ∧
    (myAssets dbPage "u1" 2 (some 2) none).edges.length ≤ 2 := by
  have hm := (C8_myAssets_amended dbPage "u1" 2 (some 2) none).1 edge3W (by decide)
  exact ⟨hm.1, hm.2.2.1 2 rfl, (C8_myAssets_amended dbPage "u1" 2 (some 2) none).2.1⟩

/-- Witness for C9. -/
theorem C9_witness :
    dbAudited.audits
      = dbShareNoDl.audits ++ [{ asset_id := "a1", user_id := "u1", at_ts := 0 }] ∧
    linkW.expiresAt = 0 + 90 * 1000 := by
  obtain ⟨asset, -, -, h3, h4, -, -, -, -⟩ := C9_download_link_spec envW dbShareNoDl
    "u1" "a1" 0 linkW dbAudited (by decide)
  exact ⟨h4, h3⟩

/-- Witness for C10: `dbPage` holds exactly 3 matching assets; with page
size 3 the page contains them all and still reports hasNextPage. -/
theorem C10_witness :
    (myAssets dbPage "u1" 3 none none).hasNextPage = true ∧
    (myAssets dbPage "u1" 3 none none).edges.length = 3 := by
  have h := (C10_hasNextPage_spec dbPage "u1" 3 none none).2 (by decide)
  exact ⟨h.2.1, h.1⟩

end MediaVault
